import Mathlib

/-!
Verification of the slideshow player repository (PySide6 variant in
src/main.py, legacy pygame variant in old/main.py, and the file-counting
utility in test_scanner.py).

The shallow embedding below translates the relevant Python code into Lean:

* The playback state of SlideshowWindow (src/main.py) becomes the record
  WState: the catalog list self.images, the integer self.current_index
  (modelled as Int, since Python arithmetic on it goes through the
  nonnegative-result % operator on a positive modulus, which coincides
  with Int.emod), the self.is_random flag, the play_timer activity, and
  the information text currently pushed to the ImageViewer (abstracted to
  the marker type InfoDisplay: the exact formatted strings do not matter
  to any claim, only whether the no-images text or the info line of a
  successfully decoded image at a given index is displayed).
* Image decoding (ImageViewer.set_image) is modelled by an oracle
  decode : String -> Bool saying which paths decode successfully.
* random.shuffle is modelled by a function parameter
  shuffle : List String -> List String; random.randint (0, len - 1) is
  modelled by consuming the head of a stream rs : List Nat of draws.
* show_current_image and next_image are mutually recursive in the source
  (a decode failure in show_current_image calls next_image, which calls
  show_current_image again).  The embedding adds an explicit fuel
  parameter; a result of none means the recursion did not finish within
  the given fuel (or the random stream ran dry), so termination
  statements quantify over the fuel.
-/

/-- Marker for what the ImageViewer currently displays as info text:
the "no images found" message set by on_scan_complete, or the info line
for the successfully decoded image at catalog position i (filename,
position, mode, scale mode, interval), or nothing yet. -/
inductive InfoDisplay where
  | blank : InfoDisplay
  | noImages : InfoDisplay
  | shown (i : Nat) : InfoDisplay
deriving DecidableEq, Repr

/-- Playback state of SlideshowWindow (src/main.py): self.images,
self.current_index, self.is_random, whether play_timer is active, and the
current info display.  Config persistence performed by toggle_random via
self.config.set is not part of this state record (the config store is
modelled separately below). -/
structure WState where
  images : List String
  idx : Int
  isRandom : Bool
  playTimerActive : Bool
  info : InfoDisplay
deriving DecidableEq, Repr

mutual

/-- SlideshowWindow.show_current_image (src/main.py lines 391-410):
return immediately on an empty catalog; otherwise try to decode the image
at the current index, displaying its info line on success and calling
next_image on failure. -/
def show_current_image (decode : String → Bool) : Nat → WState → List Nat → Option (WState × List Nat)
  | 0, _, _ => none
  | fuel + 1, σ, rs =>
    if σ.images.length = 0 then
      some (σ, rs)
    else if decode (σ.images.getD σ.idx.toNat "") then
      some ({ σ with info := InfoDisplay.shown σ.idx.toNat }, rs)
    else
      next_image decode fuel σ rs

/-- SlideshowWindow.next_image (src/main.py lines 412-422): return on an
empty catalog; in random mode draw random.randint (0, len - 1) as the new
index, in sequential mode advance by +1 mod len; then show the image. -/
def next_image (decode : String → Bool) : Nat → WState → List Nat → Option (WState × List Nat)
  | 0, _, _ => none
  | fuel + 1, σ, rs =>
    if σ.images.length = 0 then
      some (σ, rs)
    else if σ.isRandom then
      match rs with
      | [] => none
      | r :: rest => show_current_image decode fuel { σ with idx := (r : Int) } rest
    else
      show_current_image decode fuel { σ with idx := (σ.idx + 1) % (σ.images.length : Int) } rs

end

/-- SlideshowWindow.prev_image (src/main.py lines 424-432): return on an
empty catalog; decrement the index mod len only when not in random mode;
then show the image. -/
def prev_image (decode : String → Bool) (fuel : Nat) (σ : WState) (rs : List Nat) : Option (WState × List Nat) :=
  match fuel with
  | 0 => none
  | fuel + 1 =>
    if σ.images.length = 0 then
      some (σ, rs)
    else
      show_current_image decode fuel
        (if σ.isRandom then σ else { σ with idx := (σ.idx - 1) % (σ.images.length : Int) }) rs

/-- SlideshowWindow.toggle_random (src/main.py lines 434-442): flip
self.is_random (persisting it via config.set, not modelled in WState),
shuffle the catalog when the new mode is random, then show the current
image.  Note the source neither sorts the catalog nor resets the index
when switching to sequential mode. -/
def toggle_random (decode : String → Bool) (shuffle : List String → List String)
    (fuel : Nat) (σ : WState) (rs : List Nat) : Option (WState × List Nat) :=
  let newRandom := !σ.isRandom
  show_current_image decode fuel
    { σ with isRandom := newRandom,
             images := if newRandom then shuffle σ.images else σ.images } rs

/-- SlideshowWindow.on_scan_complete (src/main.py lines 367-389): an empty
scan result sets the no-images info text and stops the play timer without
touching the catalog; a non-empty result replaces the catalog (shuffled in
random mode), and when the previous catalog was empty resets the index to
0, shows the first image and starts the play timer. -/
def on_scan_complete (decode : String → Bool) (shuffle : List String → List String)
    (fuel : Nat) (σ : WState) (scanned : List String) (rs : List Nat) : Option (WState × List Nat) :=
  if scanned.length = 0 then
    some ({ σ with info := InfoDisplay.noImages, playTimerActive := false }, rs)
  else
    let oldCount := σ.images.length
    let σ1 := { σ with images := if σ.isRandom then shuffle scanned else scanned }
    if oldCount = 0 then
      match show_current_image decode fuel { σ1 with idx := 0 } rs with
      | none => none
      | some (σ2, rs2) => some ({ σ2 with playTimerActive := true }, rs2)
    else
      some (σ1, rs)

/-- A manual navigation action: the next / previous keyboard operations. -/
inductive NavOp where
  | nxt : NavOp
  | prv : NavOp
deriving DecidableEq, Repr

/-- Dispatch of one navigation key to its handler. -/
def navStep (decode : String → Bool) (fuel : Nat) (op : NavOp) (σ : WState) (rs : List Nat) : Option (WState × List Nat) :=
  match op with
  | NavOp.nxt => next_image decode fuel σ rs
  | NavOp.prv => prev_image decode fuel σ rs

/-- Run a finite sequence of navigation operations. -/
def runOps (decode : String → Bool) (fuel : Nat) : List NavOp → WState → List Nat → Option (WState × List Nat)
  | [], σ, rs => some (σ, rs)
  | op :: ops, σ, rs =>
    match navStep decode fuel op σ rs with
    | none => none
    | some (σ1, rs1) => runOps decode fuel ops σ1 rs1

/-- Concrete three-image catalog used by the spec scenarios. -/
def catalogABC : List String := ["a.png", "b.png", "c.png"]

/-- Sequential-mode state at index 0 over catalogABC. -/
def stateABC : WState :=
  { images := catalogABC, idx := 0, isRandom := false, playTimerActive := true, info := InfoDisplay.blank }

/-- A decode oracle under which every image decodes. -/
def decodeAll : String → Bool := fun _ => true

/-- A decode oracle under which no image decodes. -/
def decodeNone : String → Bool := fun _ => false

/-- A decode oracle that fails exactly on b.png. -/
def decodeNotB : String → Bool := fun p => !(p == "b.png")

/-- Random-mode state over an unsorted two-image catalog, index 1. -/
def stateBA : WState :=
  { images := ["b.png", "a.png"], idx := 1, isRandom := true, playTimerActive := true, info := InfoDisplay.blank }

/-- Code-point lexicographic comparison of character lists, at most. -/
def charsLe : List Char → List Char → Bool
  | [], _ => true
  | _ :: _, [] => false
  | c :: cs, d :: ds =>
    if c.toNat < d.toNat then true
    else if d.toNat < c.toNat then false
    else charsLe cs ds

/-- Code-point lexicographic sortedness of a string list (the order
produced by Python sorted / list.sort on str). -/
def isSortedStr : List String → Bool
  | [] => true
  | [_] => true
  | a :: b :: t => charsLe a.toList b.toList && isSortedStr (b :: t)

/-- A filesystem path as pathlib sees it: whether it is absolute and its
components.  str () on such a path joins the components with "/" and, for
an absolute path, a leading "/". -/
structure PyPath where
  absolute : Bool
  components : List String
deriving DecidableEq, Repr

/-- str (path): the string form of a PyPath. -/
def renderPath (p : PyPath) : String :=
  (if p.absolute then "/" else "") ++ String.intercalate "/" p.components

/-- A glob result: the folder with the relative components appended, as
pathlib returns folder-prefixed paths. -/
def joinRel (folder : PyPath) (rel : List String) : PyPath :=
  { absolute := folder.absolute, components := folder.components ++ rel }

/-- One entry of the recursive directory listing under the scanned
folder: its path components relative to the folder and whether it is a
regular file (path.is_file ()). -/
structure FsEntry where
  rel : List String
  isFile : Bool
deriving DecidableEq, Repr

/-- Index of the last occurrence of a character, scanning from position
i; used to model str.rfind inside pathlib suffix computation. -/
def lastIdxFrom (c : Char) : List Char → Nat → Option Nat
  | [], _ => none
  | x :: xs, i =>
    match lastIdxFrom c xs (i + 1) with
    | some j => some j
    | none => if x = c then some i else none

/-- pathlib PurePath.suffix of a file name: the part from the last dot to
the end, empty when there is no dot, when the name starts with its only
dot (hidden files), or when the dot is last. -/
def pySuffix (name : String) : String :=
  let cs := name.toList
  match lastIdxFrom '.' cs 0 with
  | none => ""
  | some i => if 0 < i ∧ i + 1 < cs.length then String.mk (cs.drop i) else ""

/-- ASCII lowercasing of one character, as str.lower acts on the ASCII
extension strings the config uses. -/
def lowerChar (c : Char) : Char :=
  if 65 ≤ c.toNat ∧ c.toNat ≤ 90 then Char.ofNat (c.toNat + 32) else c

/-- ASCII lowercasing of a string (str.lower on the extension and suffix
strings involved, which are ASCII). -/
def strLower (s : String) : String :=
  String.mk (s.toList.map lowerChar)

/-- Whether a rendered path string is absolute (begins with "/"). -/
def isAbsStr (s : String) : Bool :=
  match s.toList with
  | [] => false
  | c :: _ => c = '/'

/-- ImageScanner.run (src/main.py lines 100-116) together with the
extension lowering in ImageScanner init (line 97): emit [] when the
folder does not exist or the traversal raises; otherwise traverse the
folder (the whole recursive listing for the ** / * pattern, only the
depth-one entries for *), keep the regular files whose lowered suffix is
among the lowered accepted extensions, and emit str (path) for each, in
traversal order.  The emitted strings are the folder-prefixed paths
pathlib produced: they are absolute exactly when the configured folder
path is absolute. -/
def scanner_run (folder : PyPath) (folderExists : Bool) (scanError : Bool)
    (listing : List FsEntry) (extensions : List String) (recursive : Bool) : List String :=
  if folderExists = false then
    []
  else if scanError then
    []
  else
    let exts := extensions.map strLower
    let cands := if recursive then listing else listing.filter (fun e => e.rel.length == 1)
    (cands.filter (fun e => e.isFile && exts.contains (strLower (pySuffix (e.rel.getLastD ""))))).map
      (fun e => renderPath (joinRel folder e.rel))

/-- A JSON-representable config value as they occur in DEFAULT_CONFIG:
string, integer, boolean, null, or list of strings. -/
inductive CVal where
  | s (v : String) : CVal
  | i (v : Int) : CVal
  | b (v : Bool) : CVal
  | null : CVal
  | strs (v : List String) : CVal
deriving DecidableEq, Repr

/-- A Python dict of config keys, in insertion order. -/
abbrev CDict := List (String × CVal)

/-- dict lookup: value of the first entry with the given key. -/
def dictGet (d : CDict) (k : String) : Option CVal :=
  match d with
  | [] => none
  | (k1, v) :: t => if k1 = k then some v else dictGet t k

/-- dict key-membership test. -/
def dictHasKey (d : CDict) (k : String) : Bool :=
  (dictGet d k).isSome

/-- Python d [k] = v: update the entry in place when the key exists,
append it otherwise. -/
def dictPut (d : CDict) (k : String) (v : CVal) : CDict :=
  match d with
  | [] => [(k, v)]
  | (k1, v1) :: t => if k1 = k then (k1, v) :: t else (k1, v1) :: dictPut t k v

/-- Python left-to-right dict merge as in the double-star expansion of
DEFAULT_CONFIG followed by the loaded dict: the keys of d1 in order, each
taking the d2 value when d2 has the key, followed by the keys of d2 not
in d1, in order. -/
def dictMerge (d1 d2 : CDict) : CDict :=
  d1.map (fun kv => (kv.1, (dictGet d2 kv.1).getD kv.2))
    ++ d2.filter (fun kv => !dictHasKey d1 kv.1)

/-- Config.DEFAULT_CONFIG (src/main.py lines 41-56). -/
def DEFAULT_CONFIG : CDict :=
  [("image_folder", CVal.s ""),
   ("recursive", CVal.b true),
   ("interval", CVal.i 5),
   ("random", CVal.b true),
   ("fullscreen", CVal.b true),
   ("scale_mode", CVal.s "fit"),
   ("extensions", CVal.strs [".jpg", ".jpeg", ".png", ".bmp", ".gif", ".tiff", ".webp"]),
   ("rescan_interval", CVal.i 300),
   ("show_info", CVal.b true),
   ("show_clock", CVal.b true),
   ("font_path", CVal.null),
   ("font_size", CVal.i 20),
   ("info_color", CVal.s "#FFFFFF"),
   ("background_color", CVal.s "#000000")]

/-- What reading the config file can yield: no file (exists () false), a
read or JSON parse failure (the except branch), or the parsed dict. -/
inductive FileRead where
  | absent : FileRead
  | unreadable : FileRead
  | content (d : CDict) : FileRead
deriving DecidableEq, Repr

/-- Config.load (src/main.py lines 62-71): merge the loaded keys over
DEFAULT_CONFIG; on a missing file or any read or parse error, fall back
to a copy of the defaults. -/
def config_load : FileRead → CDict
  | FileRead.absent => DEFAULT_CONFIG
  | FileRead.unreadable => DEFAULT_CONFIG
  | FileRead.content d => dictMerge DEFAULT_CONFIG d

/-- Config.save (src/main.py lines 73-79): rewrite the whole file with
the in-memory dict; on a write failure the exception is caught and only
logged, leaving the file as it was. -/
def config_save (mem : CDict) (writeOk : Bool) (file : FileRead) : FileRead :=
  if writeOk then FileRead.content mem else file

/-- Config.set (src/main.py lines 84-86): mutate the in-memory dict, then
save.  The in-memory result never depends on whether the save
succeeded. -/
def config_set (mem : CDict) (file : FileRead) (writeOk : Bool) (k : String) (v : CVal) :
    CDict × FileRead :=
  let mem1 := dictPut mem k v
  (mem1, config_save mem1 writeOk file)

mutual

/-- A directory tree node: a regular file, or a directory with its
children. -/
inductive FsTree where
  | file : FsTree
  | dir (children : FsForest) : FsTree

/-- A list of sibling nodes inside a directory. -/
inductive FsForest where
  | nil : FsForest
  | cons (t : FsTree) (rest : FsForest) : FsForest

end

mutual

/-- Total number of regular files in a tree. -/
def totalFiles : FsTree → Nat
  | FsTree.file => 1
  | FsTree.dir cs => totalFilesForest cs

/-- Total number of regular files in a forest. -/
def totalFilesForest : FsForest → Nat
  | FsForest.nil => 0
  | FsForest.cons t rest => totalFiles t + totalFilesForest rest

end

/-- Number of direct file children of a forest, the len (files) of one
os.walk step. -/
def forestFileCount : FsForest → Nat
  | FsForest.nil => 0
  | FsForest.cons FsTree.file rest => 1 + forestFileCount rest
  | FsForest.cons (FsTree.dir _) rest => forestFileCount rest

mutual

/-- os.walk over a tree in top-down order: for each directory, the number
of regular files directly inside it (a file node contributes no walk
step of its own). -/
def walkCounts : FsTree → List Nat
  | FsTree.file => []
  | FsTree.dir cs => forestFileCount cs :: walkCountsForest cs

/-- os.walk steps contributed by the subdirectories of a forest. -/
def walkCountsForest : FsForest → List Nat
  | FsForest.nil => []
  | FsForest.cons t rest => walkCounts t ++ walkCountsForest rest

end

/-- What probing the argument of count_all_files can find: a missing
path, an existing non-directory, a directory whose traversal raises
PermissionError, a directory whose traversal raises some other exception,
or a readable directory with its children. -/
inductive PathProbe where
  | missing : PathProbe
  | notDir : PathProbe
  | permError : PathProbe
  | otherError : PathProbe
  | dirOk (children : FsForest) : PathProbe

/-- count_all_files (test_scanner.py lines 4-42): -1 when the path is
missing, is not a directory, or the walk raises (PermissionError or any
other exception); otherwise the loop accumulates len (files) over the
os.walk steps of the directory tree.  The function is total: no case
raises to the caller. -/
def count_all_files : PathProbe → Int
  | PathProbe.missing => -1
  | PathProbe.notDir => -1
  | PathProbe.permError => -1
  | PathProbe.otherError => -1
  | PathProbe.dirOk cs =>
    Int.ofNat ((walkCounts (FsTree.dir cs)).foldl (fun acc n => acc + n) 0)

/-- When no catalog entry decodes, the mutual recursion between
show_current_image and next_image in sequential mode never produces a
result, whatever the fuel: the source has no bound on the number of
automatic skips and never falls back to the no-images display. -/
theorem skip_recursion_diverges (decode : String → Bool) (hd : ∀ p, decode p = false) :
    ∀ (fuel : Nat) (σ : WState) (rs : List Nat), σ.isRandom = false → σ.images.length ≠ 0 →
      show_current_image decode fuel σ rs = none ∧ next_image decode fuel σ rs = none := by
  intro fuel
  induction fuel with
  | zero =>
    intro σ rs _ _
    exact ⟨rfl, rfl⟩
  | succ n ih =>
    intro σ rs hr hne
    obtain ⟨imgs, i, ir, pt, inf⟩ := σ
    simp only at hr hne
    subst hr
    refine ⟨?_, ?_⟩
    · simp only [show_current_image, if_neg hne, hd, Bool.false_eq_true, if_false]
      exact (ih ⟨imgs, i, false, pt, inf⟩ rs rfl hne).2
    · simp only [next_image, if_neg hne, Bool.false_eq_true, if_false]
      exact (ih ⟨imgs, (i + 1) % (imgs.length : Int), false, pt, inf⟩ rs rfl hne).1

/-- Claim C1 counterexample: with the non-empty catalog [a.png, b.png,
c.png] in which every image fails to decode, the claim says the automatic
skipping is bounded by one full catalog pass and then falls back to the
no-images display; but even with fuel 9 (enough for four full passes of
the skip recursion) show_current_image has not produced any display at
all, so no fallback within one pass exists. -/
theorem c1_counterexample :
    show_current_image decodeNone 9 stateABC [] = none
    ∧ stateABC.images.length = 3 := by
  constructor
  · rfl
  · rfl

/-- Claim C1 amended: if decoding the image at the current index fails,
the player automatically advances to the next index and retries — with
catalog [a.png, b.png, c.png] and only b.png failing, a single automatic
skip from index 1 lands on c.png (index 2) with no user input — but the
skipping is not bounded by one catalog pass: when every image in a
non-empty catalog fails to decode, the mutual recursion of
show_current_image and next_image never terminates and never reaches a
no-images display (for every fuel the fuelled embedding yields none). -/
theorem c1_skip_behavior :
    ((show_current_image decodeNotB 4 { stateABC with idx := 1 } []).map
        (fun p => (p.1.idx, p.1.info)) = some (2, InfoDisplay.shown 2))
    ∧ (∀ fuel : Nat, show_current_image decodeNone fuel stateABC [] = none) := by
  constructor
  · rfl
  · intro fuel
    exact (skip_recursion_diverges decodeNone (fun _ => rfl) fuel stateABC [] rfl (by decide)).1


/-- Claim C2 counterexample: starting from random mode over the catalog
[b.png, a.png] at index 1, toggling the order mode to sequential leaves
the catalog in the non-lexicographic order [b.png, a.png] and leaves the
playback index at 1; the claim says it re-sorts the catalog and resets
the index to 0. -/
theorem c2_counterexample :
    (toggle_random decodeAll id 2 stateBA []).map (fun p => (p.1.idx, p.1.images))
        = some (1, ["b.png", "a.png"])
    ∧ isSortedStr ["b.png", "a.png"] = false
    ∧ (1 : Int) ≠ 0 := by
  refine ⟨rfl, by decide, by decide⟩

/-- Claim C2 amended: toggling the order mode only flips the flag and
reshuffles when entering random mode.  Switching to sequential leaves
both the catalog order and the playback index exactly as they were (no
re-sort, no index reset); switching to random replaces the catalog by
the permutation produced by random.shuffle (so the catalog keeps the same
elements) and also leaves the index unchanged — with no guarantee that
the shuffled order differs from the previous one (the identity
permutation f = id is a possible shuffle outcome). -/
theorem c2_toggle_behavior (decode : String → Bool) (f : List String → List String)
    (σ : WState) (rs : List Nat) (fuel : Nat)
    (hdec : ∀ p, decode p = true) (hne : σ.images.length ≠ 0) :
    (σ.isRandom = true →
      (toggle_random decode f (fuel + 1) σ rs).map (fun p => (p.1.images, p.1.idx, p.1.isRandom))
        = some (σ.images, σ.idx, false))
    ∧ (σ.isRandom = false → (∀ l, List.Perm (f l) l) →
      (toggle_random decode f (fuel + 1) σ rs).map (fun p => (p.1.images, p.1.idx, p.1.isRandom))
        = some (f σ.images, σ.idx, true)
      ∧ List.Perm (f σ.images) σ.images) := by
  obtain ⟨imgs, i, ir, pt, inf⟩ := σ
  simp only at hne
  constructor
  · intro hr
    simp only at hr
    subst hr
    simp only [toggle_random, Bool.not_true, show_current_image, if_neg hne, hdec, if_true,
      Bool.false_eq_true, if_false]
    rfl
  · intro hr hperm
    simp only at hr
    subst hr
    have hne2 : (f imgs).length ≠ 0 := by
      rw [(hperm imgs).length_eq]
      exact hne
    refine ⟨?_, hperm imgs⟩
    simp only [toggle_random, Bool.not_false, show_current_image, if_true, if_neg hne2, hdec]
    rfl

/-- Witness for c2_toggle_behavior at concrete inputs: toggling stateBA
(random) to sequential keeps catalog [b.png, a.png] and index 1; toggling
stateABC (sequential) to random with the identity shuffle keeps catalog
and index. -/
theorem c2_toggle_behavior_witness :
    ((toggle_random decodeAll id 2 stateBA []).map (fun p => (p.1.images, p.1.idx, p.1.isRandom))
        = some (stateBA.images, stateBA.idx, false))
    ∧ ((toggle_random decodeAll id 2 stateABC []).map (fun p => (p.1.images, p.1.idx, p.1.isRandom))
        = some (id stateABC.images, stateABC.idx, true)) :=
  ⟨(c2_toggle_behavior decodeAll id stateBA [] 1 (fun _ => rfl) (by decide)).1 rfl,
   ((c2_toggle_behavior decodeAll id stateABC [] 1 (fun _ => rfl) (by decide)).2 rfl
      (fun l => List.Perm.refl l)).1⟩

/-- Claim C3: for every non-empty catalog with every image decodable, the
next operation in sequential mode sets the index to (index + 1) mod
length; in random mode it sets the index to the drawn value r for any
draw r in [0, length), with no exclusion of the current index (the third
conjunct draws r = 1 while the current index is 1 and lands on 1); and on
catalog [a.png, b.png, c.png] in sequential mode starting at index 0,
three consecutive next calls produce the index sequence 1, 2, 0. -/
theorem c3_next_image_spec :
    (∀ (decode : String → Bool) (σ : WState) (rs : List Nat) (fuel : Nat),
      (∀ p, decode p = true) → σ.images.length ≠ 0 → σ.isRandom = false →
      (next_image decode (fuel + 2) σ rs).map (fun p => p.1.idx)
        = some ((σ.idx + 1) % (σ.images.length : Int)))
    ∧ (∀ (decode : String → Bool) (σ : WState) (r : Nat) (rs : List Nat) (fuel : Nat),
      (∀ p, decode p = true) → σ.images.length ≠ 0 → σ.isRandom = true → r < σ.images.length →
      (next_image decode (fuel + 2) σ (r :: rs)).map (fun p => p.1.idx) = some (r : Int))
    ∧ ((next_image decodeAll 2 { stateABC with isRandom := true, idx := 1 } [1, 5]).map
        (fun p => p.1.idx) = some 1)
    ∧ ((runOps decodeAll 2 [NavOp.nxt] stateABC []).map (fun p => p.1.idx) = some 1)
    ∧ ((runOps decodeAll 2 [NavOp.nxt, NavOp.nxt] stateABC []).map (fun p => p.1.idx) = some 2)
    ∧ ((runOps decodeAll 2 [NavOp.nxt, NavOp.nxt, NavOp.nxt] stateABC []).map (fun p => p.1.idx)
        = some 0) := by
  refine ⟨?_, ?_, rfl, rfl, rfl, rfl⟩
  · intro decode σ rs fuel hdec hne hr
    obtain ⟨imgs, i, ir, pt, inf⟩ := σ
    simp only at hne hr
    subst hr
    simp only [next_image, if_neg hne, Bool.false_eq_true, if_false, show_current_image, hdec,
      if_true]
    rfl
  · intro decode σ r rs fuel hdec hne hr hlt
    obtain ⟨imgs, i, ir, pt, inf⟩ := σ
    simp only at hne hr
    subst hr
    simp only [next_image, if_neg hne, if_true, show_current_image, hdec]
    rfl

/-- Witness for the quantified parts of c3_next_image_spec: one
sequential next from stateABC yields index (0 + 1) mod 3, and one random
next from stateBA with draw 0 yields index 0. -/
theorem c3_next_image_witness :
    ((next_image decodeAll 2 stateABC []).map (fun p => p.1.idx)
        = some ((stateABC.idx + 1) % (stateABC.images.length : Int)))
    ∧ ((next_image decodeAll 2 stateBA [0]).map (fun p => p.1.idx) = some ((0 : Nat) : Int)) :=
  ⟨c3_next_image_spec.1 decodeAll stateABC [] 0 (fun _ => rfl) (by decide) rfl,
   c3_next_image_spec.2.1 decodeAll stateBA 0 [] 0 (fun _ => rfl) (by decide) rfl (by decide)⟩

/-- Claim C4: for every non-empty catalog with every image decodable, the
previous operation in sequential mode sets the index to (index - 1) mod
length (Python % on a positive modulus, hence the wraparound into
[0, length)); while random mode is active the previous operation leaves
the playback index unchanged. -/
theorem c4_prev_image_spec :
    (∀ (decode : String → Bool) (σ : WState) (rs : List Nat) (fuel : Nat),
      (∀ p, decode p = true) → σ.images.length ≠ 0 → σ.isRandom = false →
      (prev_image decode (fuel + 2) σ rs).map (fun p => p.1.idx)
        = some ((σ.idx - 1) % (σ.images.length : Int)))
    ∧ (∀ (decode : String → Bool) (σ : WState) (rs : List Nat) (fuel : Nat),
      (∀ p, decode p = true) → σ.images.length ≠ 0 → σ.isRandom = true →
      (prev_image decode (fuel + 2) σ rs).map (fun p => p.1.idx) = some σ.idx) := by
  constructor
  · intro decode σ rs fuel hdec hne hr
    obtain ⟨imgs, i, ir, pt, inf⟩ := σ
    simp only at hne hr
    subst hr
    simp only [prev_image, if_neg hne, Bool.false_eq_true, if_false, show_current_image, hdec,
      if_true]
    rfl
  · intro decode σ rs fuel hdec hne hr
    obtain ⟨imgs, i, ir, pt, inf⟩ := σ
    simp only at hne hr
    subst hr
    simp only [prev_image, if_neg hne, if_true, show_current_image, hdec]
    rfl

/-- Witness for c4_prev_image_spec: one sequential previous from stateABC
yields index (0 - 1) mod 3 = 2, and one previous in random mode from
stateBA leaves the index at 1. -/
theorem c4_prev_image_witness :
    ((prev_image decodeAll 2 stateABC []).map (fun p => p.1.idx)
        = some ((stateABC.idx - 1) % (stateABC.images.length : Int)))
    ∧ ((prev_image decodeAll 2 stateBA []).map (fun p => p.1.idx) = some stateBA.idx) :=
  ⟨c4_prev_image_spec.1 decodeAll stateABC [] 0 (fun _ => rfl) (by decide) rfl,
   c4_prev_image_spec.2 decodeAll stateBA [] 0 (fun _ => rfl) (by decide) rfl⟩

/-- In sequential mode, a successful show_current_image or next_image
keeps the playback index inside [0, length), leaves the catalog and the
mode unchanged, and a successful next_image does so from any starting
index (its % length assignment restores the range). -/
theorem nav_range_invariant (decode : String → Bool) :
    ∀ fuel : Nat,
      (∀ (σ σ1 : WState) (rs rs1 : List Nat),
        show_current_image decode fuel σ rs = some (σ1, rs1) →
        σ.isRandom = false → 0 ≤ σ.idx → σ.idx < (σ.images.length : Int) →
        0 ≤ σ1.idx ∧ σ1.idx < (σ1.images.length : Int) ∧ σ1.images = σ.images ∧ σ1.isRandom = false)
      ∧ (∀ (σ σ1 : WState) (rs rs1 : List Nat),
        next_image decode fuel σ rs = some (σ1, rs1) →
        σ.isRandom = false → σ.images.length ≠ 0 →
        0 ≤ σ1.idx ∧ σ1.idx < (σ1.images.length : Int) ∧ σ1.images = σ.images ∧ σ1.isRandom = false) := by
  intro fuel
  induction fuel with
  | zero =>
    constructor
    · intro σ σ1 rs rs1 h
      simp only [show_current_image] at h
      exact Option.noConfusion h
    · intro σ σ1 rs rs1 h
      simp only [next_image] at h
      exact Option.noConfusion h
  | succ n ih =>
    constructor
    · intro σ σ1 rs rs1 h hr h0 hlt
      obtain ⟨imgs, i, ir, pt, inf⟩ := σ
      simp only at hr h0 hlt
      subst hr
      by_cases he : imgs.length = 0
      · rw [he] at hlt
        exact absurd (lt_of_le_of_lt h0 hlt) (by simp)
      · simp only [show_current_image, if_neg he] at h
        by_cases hd : decode (imgs.getD i.toNat "") = true
        · rw [if_pos hd] at h
          simp only [Option.some.injEq, Prod.mk.injEq] at h
          obtain ⟨hσ, _⟩ := h
          subst hσ
          exact ⟨h0, hlt, rfl, rfl⟩
        · rw [if_neg hd] at h
          exact ih.2 ⟨imgs, i, false, pt, inf⟩ σ1 rs rs1 h rfl he
    · intro σ σ1 rs rs1 h hr hne
      obtain ⟨imgs, i, ir, pt, inf⟩ := σ
      simp only at hr hne
      subst hr
      simp only [next_image, if_neg hne, Bool.false_eq_true, if_false] at h
      have hpos : (0 : Int) < (imgs.length : Int) := by
        exact_mod_cast Nat.pos_of_ne_zero hne
      have h0 : 0 ≤ (i + 1) % (imgs.length : Int) :=
        Int.emod_nonneg (i + 1) (by exact_mod_cast hne)
      have hlt : (i + 1) % (imgs.length : Int) < (imgs.length : Int) :=
        Int.emod_lt_of_pos (i + 1) hpos
      exact ih.1 ⟨imgs, (i + 1) % (imgs.length : Int), false, pt, inf⟩ σ1 rs rs1 h rfl h0 hlt

/-- In sequential mode, a successful prev_image keeps the playback index
inside [0, length) and leaves the catalog and mode unchanged. -/
theorem prev_range_invariant (decode : String → Bool) (fuel : Nat) (σ σ1 : WState)
    (rs rs1 : List Nat) (h : prev_image decode fuel σ rs = some (σ1, rs1))
    (hr : σ.isRandom = false) (hne : σ.images.length ≠ 0) :
    0 ≤ σ1.idx ∧ σ1.idx < (σ1.images.length : Int) ∧ σ1.images = σ.images ∧ σ1.isRandom = false := by
  match fuel with
  | 0 =>
    simp only [prev_image] at h
    exact Option.noConfusion h
  | n + 1 =>
    obtain ⟨imgs, i, ir, pt, inf⟩ := σ
    simp only at hr hne
    subst hr
    simp only [prev_image, if_neg hne, Bool.false_eq_true, if_false] at h
    have hpos : (0 : Int) < (imgs.length : Int) := by
      exact_mod_cast Nat.pos_of_ne_zero hne
    have h0 : 0 ≤ (i - 1) % (imgs.length : Int) :=
      Int.emod_nonneg (i - 1) (by exact_mod_cast hne)
    have hlt : (i - 1) % (imgs.length : Int) < (imgs.length : Int) :=
      Int.emod_lt_of_pos (i - 1) hpos
    exact (nav_range_invariant decode n).1 ⟨imgs, (i - 1) % (imgs.length : Int), false, pt, inf⟩
      σ1 rs rs1 h rfl h0 hlt

/-- Claim C5: in sequential mode over a non-empty catalog, any finite
sequence of next and previous operations that completes keeps the
playback index within [0, length) and leaves the catalog unchanged; over
an empty catalog both next_image and prev_image return the state
untouched (the distinct no-image situation). -/
theorem c5_index_invariant :
    (∀ (decode : String → Bool) (fuel : Nat) (ops : List NavOp) (σ σ1 : WState)
        (rs rs1 : List Nat),
      runOps decode fuel ops σ rs = some (σ1, rs1) →
      σ.isRandom = false → σ.images.length ≠ 0 → 0 ≤ σ.idx → σ.idx < (σ.images.length : Int) →
      0 ≤ σ1.idx ∧ σ1.idx < (σ1.images.length : Int) ∧ σ1.images = σ.images)
    ∧ (∀ (decode : String → Bool) (fuel : Nat) (σ : WState) (rs : List Nat),
      σ.images = [] →
      next_image decode (fuel + 1) σ rs = some (σ, rs)
      ∧ prev_image decode (fuel + 1) σ rs = some (σ, rs)) := by
  constructor
  · intro decode fuel ops
    induction ops with
    | nil =>
      intro σ σ1 rs rs1 h hr hne h0 hlt
      simp only [runOps, Option.some.injEq, Prod.mk.injEq] at h
      obtain ⟨hσ, _⟩ := h
      subst hσ
      exact ⟨h0, hlt, rfl⟩
    | cons op ops ihops =>
      intro σ σ1 rs rs1 h hr hne h0 hlt
      simp only [runOps] at h
      cases hstep : navStep decode fuel op σ rs with
      | none => rw [hstep] at h; exact absurd h (by simp)
      | some p =>
        obtain ⟨σm, rsm⟩ := p
        rw [hstep] at h
        have hmid : 0 ≤ σm.idx ∧ σm.idx < (σm.images.length : Int)
            ∧ σm.images = σ.images ∧ σm.isRandom = false := by
          cases op with
          | nxt => exact (nav_range_invariant decode fuel).2 σ σm rs rsm hstep hr hne
          | prv => exact prev_range_invariant decode fuel σ σm rs rsm hstep hr hne
        obtain ⟨m0, mlt, mimg, mr⟩ := hmid
        have := ihops σm σ1 rsm rs1 h mr (by rw [mimg]; exact hne) m0 mlt
        exact ⟨this.1, this.2.1, by rw [this.2.2, mimg]⟩
  · intro decode fuel σ rs hempty
    have hlen : σ.images.length = 0 := by rw [hempty]; rfl
    constructor
    · simp only [next_image, if_pos hlen]
    · simp only [prev_image, if_pos hlen]

/-- Witness for c5_index_invariant: running [next] from stateABC lands in
the state with index 1, which is inside [0, 3); and next and previous on
an empty catalog return the state unchanged. -/
theorem c5_index_invariant_witness :
    (0 ≤ ({ stateABC with idx := 1, info := InfoDisplay.shown 1 } : WState).idx
      ∧ ({ stateABC with idx := 1, info := InfoDisplay.shown 1 } : WState).idx
          < (({ stateABC with idx := 1, info := InfoDisplay.shown 1 } : WState).images.length : Int)
      ∧ ({ stateABC with idx := 1, info := InfoDisplay.shown 1 } : WState).images = stateABC.images)
    ∧ (next_image decodeAll 1 { stateABC with images := [] } []
          = some ({ stateABC with images := [] }, [])
      ∧ prev_image decodeAll 1 { stateABC with images := [] } []
          = some ({ stateABC with images := [] }, [])) :=
  ⟨c5_index_invariant.1 decodeAll 2 [NavOp.nxt] stateABC
      { stateABC with idx := 1, info := InfoDisplay.shown 1 } [] [] (by decide) rfl (by decide)
      (by decide) (by decide),
   c5_index_invariant.2 decodeAll 0 { stateABC with images := [] } [] rfl⟩

/-- Claim C6: when a scan completes with zero images, whatever the prior
playback state, the play timer is stopped and the no-images display is
shown (the source returns early, so every other field — including the
previously known catalog — is left as it was); and a scan over a missing
folder yields the empty list rather than an error, so its completion
triggers exactly this transition. -/
theorem c6_empty_scan_spec :
    (∀ (decode : String → Bool) (shuffle : List String → List String) (fuel : Nat)
        (σ : WState) (rs : List Nat),
      on_scan_complete decode shuffle fuel σ [] rs
        = some ({ σ with info := InfoDisplay.noImages, playTimerActive := false }, rs))
    ∧ (∀ (folder : PyPath) (scanError : Bool) (listing : List FsEntry)
        (extensions : List String) (recursive : Bool),
      scanner_run folder false scanError listing extensions recursive = []) := by
  constructor
  · intro decode shuffle fuel σ rs
    rfl
  · intro folder scanError listing extensions recursive
    rfl

/-- The relative folder configured by default: Path ("images"). -/
def folderImages : PyPath := { absolute := false, components := ["images"] }

/-- An absolute folder used as a scanner witness input. -/
def folderPics : PyPath := { absolute := true, components := ["pics"] }

/-- A two-entry traversal listing: one upper-case-extension file and one
subdirectory. -/
def listingPics : List FsEntry :=
  [{ rel := ["a.PNG"], isFile := true }, { rel := ["sub"], isFile := false }]

/-- Claim C7 counterexample: scanning the relative folder "images"
containing the single matching file a.png emits the folder-prefixed
relative string "images/a.png" (str of a relative pathlib path), which is
not an absolute path; the claim says the scanner returns absolute paths
for every folder. -/
theorem c7_counterexample :
    scanner_run folderImages true false [{ rel := ["a.png"], isFile := true }] [".png"] true
        = ["images/a.png"]
    ∧ isAbsStr "images/a.png" = false := by
  exact ⟨by decide, by decide⟩

/-- Claim C7 amended: for every folder, extension set and recursive flag,
a successful scan returns an order-stable subselection of the traversal
listing (hence deduplicated whenever the traversal paths are distinct,
which a filesystem walk guarantees): exactly the regular-file entries
whose pathlib suffix matches the accepted extension set
case-insensitively, restricted to depth-one entries when the recursive
flag is off, each rendered as the folder-prefixed path — which is
absolute exactly when the configured folder path is absolute, not
unconditionally. -/
theorem c7_scanner_spec (folder : PyPath) (listing : List FsEntry)
    (extensions : List String) (recursive : Bool)
    (hnd : (listing.map (fun e => renderPath (joinRel folder e.rel))).Nodup) :
    (scanner_run folder true false listing extensions recursive).Nodup
    ∧ (scanner_run folder true false listing extensions recursive).Sublist
        (listing.map (fun e => renderPath (joinRel folder e.rel)))
    ∧ (∀ s ∈ scanner_run folder true false listing extensions recursive,
      ∃ e ∈ listing, e.isFile = true
        ∧ (extensions.map strLower).contains (strLower (pySuffix (e.rel.getLastD ""))) = true
        ∧ (recursive = false → e.rel.length = 1)
        ∧ s = renderPath (joinRel folder e.rel)
        ∧ (joinRel folder e.rel).absolute = folder.absolute) := by
  have hbody : scanner_run folder true false listing extensions recursive
      = ((if recursive then listing else listing.filter (fun e => e.rel.length == 1)).filter
          (fun e => e.isFile
            && (extensions.map strLower).contains (strLower (pySuffix (e.rel.getLastD ""))))).map
        (fun e => renderPath (joinRel folder e.rel)) := rfl
  have hsub : (scanner_run folder true false listing extensions recursive).Sublist
      (listing.map (fun e => renderPath (joinRel folder e.rel))) := by
    rw [hbody]
    apply List.Sublist.trans (List.Sublist.map _ (List.filter_sublist _))
    apply List.Sublist.map
    cases recursive with
    | true => exact List.Sublist.refl listing
    | false => exact List.filter_sublist listing
  refine ⟨hnd.sublist hsub, hsub, ?_⟩
  intro s hs
  rw [hbody] at hs
  obtain ⟨e, he, rfl⟩ := List.mem_map.mp hs
  have hef := List.mem_filter.mp he
  have hcand := hef.1
  have hpred := hef.2
  rw [Bool.and_eq_true] at hpred
  have hmem : e ∈ listing ∧ (recursive = false → e.rel.length = 1) := by
    cases recursive with
    | true =>
      refine ⟨by simpa using hcand, ?_⟩
      intro h
      exact absurd h (by simp)
    | false =>
      have h2 : e ∈ listing ∧ e.rel.length = 1 := by simpa using hcand
      exact ⟨h2.1, fun _ => h2.2⟩
  exact ⟨e, hmem.1, hpred.1, hpred.2, hmem.2, rfl, rfl⟩

/-- Witness for c7_scanner_spec: over the absolute folder /pics with a
listing of one a.PNG file and one subdirectory, the scan is deduplicated,
order-stable, and its one output /pics/a.PNG comes from the upper-case
extension matching .png case-insensitively. -/
theorem c7_scanner_spec_witness :
    (scanner_run folderPics true false listingPics [".png"] true).Nodup
    ∧ (scanner_run folderPics true false listingPics [".png"] true).Sublist
        (listingPics.map (fun e => renderPath (joinRel folderPics e.rel)))
    ∧ (∀ s ∈ scanner_run folderPics true false listingPics [".png"] true,
      ∃ e ∈ listingPics, e.isFile = true
        ∧ ([".png"].map strLower).contains (strLower (pySuffix (e.rel.getLastD ""))) = true
        ∧ (true = false → e.rel.length = 1)
        ∧ s = renderPath (joinRel folderPics e.rel)
        ∧ (joinRel folderPics e.rel).absolute = folderPics.absolute) :=
  c7_scanner_spec folderPics listingPics [".png"] true (by decide)

/-- Lookup in a concatenation of dicts: the left dict wins. -/
theorem dictGet_append (l1 l2 : CDict) (k : String) :
    dictGet (l1 ++ l2) k
      = match dictGet l1 k with
        | some v => some v
        | none => dictGet l2 k := by
  induction l1 with
  | nil => rfl
  | cons kv t ih =>
    obtain ⟨k1, v1⟩ := kv
    by_cases h : k1 = k
    · simp [dictGet, h]
    · simp [dictGet, h, ih]

/-- Lookup after a key-preserving value map. -/
theorem dictGet_map (d : CDict) (g : String → CVal → CVal) (k : String) :
    dictGet (d.map (fun kv => (kv.1, g kv.1 kv.2))) k = (dictGet d k).map (g k) := by
  induction d with
  | nil => rfl
  | cons kv t ih =>
    obtain ⟨k1, v1⟩ := kv
    by_cases h : k1 = k
    · subst h
      simp [dictGet]
    · simp [dictGet, h, ih]

/-- Keeping only the entries whose key is absent from d1 does not change
lookups of keys absent from d1. -/
theorem dictGet_filter_out (d1 d2 : CDict) (k : String) (h : dictGet d1 k = none) :
    dictGet (d2.filter (fun kv => !dictHasKey d1 kv.1)) k = dictGet d2 k := by
  induction d2 with
  | nil => rfl
  | cons kv t ih =>
    obtain ⟨k2, v2⟩ := kv
    by_cases hk : k2 = k
    · subst hk
      have hmem : dictHasKey d1 k2 = false := by
        simp [dictHasKey, h]
      simp [List.filter_cons, hmem, dictGet]
    · by_cases hmem : dictHasKey d1 k2
      · simp [List.filter_cons, hmem, dictGet, hk, ih]
      · simp [List.filter_cons, hmem, dictGet, hk, ih]

/-- Lookup of the first entry with the given key after a point update. -/
theorem dictPut_get (d : CDict) (k : String) (v : CVal) :
    dictGet (dictPut d k v) k = some v := by
  induction d with
  | nil => simp [dictPut, dictGet]
  | cons kv t ih =>
    obtain ⟨k1, v1⟩ := kv
    by_cases h : k1 = k
    · simp [dictPut, h, dictGet]
    · simp [dictPut, h, dictGet, ih]

/-- Lookup in the Python double-star merge: the right dict wins on its
keys, the left dict answers the rest. -/
theorem dictMerge_get (d1 d2 : CDict) (k : String) :
    dictGet (dictMerge d1 d2) k
      = match dictGet d2 k with
        | some v => some v
        | none => dictGet d1 k := by
  unfold dictMerge
  rw [dictGet_append]
  rw [show (fun kv : String × CVal => (kv.1, (dictGet d2 kv.1).getD kv.2))
      = (fun kv : String × CVal => (kv.1, (fun k1 v1 => (dictGet d2 k1).getD v1) kv.1 kv.2))
    from rfl]
  rw [dictGet_map d1 (fun k1 v1 => (dictGet d2 k1).getD v1) k]
  cases h1 : dictGet d1 k with
  | none =>
    rw [Option.map_none']
    rw [dictGet_filter_out d1 d2 k h1]
    cases h2 : dictGet d2 k <;> rfl
  | some v1 =>
    rw [Option.map_some']
    cases h2 : dictGet d2 k <;> simp [h2]

/-- Claim C8: loading a parsed config file merges the file keys over
DEFAULT_CONFIG (every key found in the file takes its file value, every
other key its default); a missing or unreadable or unparsable file loads
as the full defaults instead of raising; and config set always leaves
the in-memory dict updated at the written key, whether or not the save
rewrite of the file succeeded (save failures are only logged). -/
theorem c8_config_spec :
    (∀ (d : CDict) (k : String),
      dictGet (config_load (FileRead.content d)) k
        = match dictGet d k with
          | some v => some v
          | none => dictGet DEFAULT_CONFIG k)
    ∧ config_load FileRead.absent = DEFAULT_CONFIG
    ∧ config_load FileRead.unreadable = DEFAULT_CONFIG
    ∧ (∀ (mem : CDict) (file : FileRead) (writeOk : Bool) (k : String) (v : CVal),
      dictGet (config_set mem file writeOk k v).1 k = some v) := by
  refine ⟨?_, rfl, rfl, ?_⟩
  · intro d k
    exact dictMerge_get DEFAULT_CONFIG d k
  · intro mem file writeOk k v
    exact dictPut_get mem k v

/-- Claim C9: round-trip persistence — for a settings dict that contains
the key (every reachable Config dict contains at least all DEFAULT_CONFIG
keys), a successful save followed by load yields the same effective value
on every key present in the defaults. -/
theorem c9_roundtrip (mem : CDict) (file : FileRead) (k : String)
    (hdef : (dictGet DEFAULT_CONFIG k).isSome = true)
    (hmem : (dictGet mem k).isSome = true) :
    dictGet (config_load (config_save mem true file)) k = dictGet mem k := by
  rw [show config_save mem true file = FileRead.content mem from rfl]
  rw [show config_load (FileRead.content mem) = dictMerge DEFAULT_CONFIG mem from rfl]
  rw [dictMerge_get]
  cases h : dictGet mem k with
  | none =>
    rw [h] at hmem
    exact absurd hmem (by simp)
  | some v => rfl

/-- Witness for c9_roundtrip: saving the default dict and loading it back
leaves the interval key unchanged. -/
theorem c9_roundtrip_witness :
    dictGet (config_load (config_save DEFAULT_CONFIG true FileRead.absent)) "interval"
      = dictGet DEFAULT_CONFIG "interval" :=
  c9_roundtrip DEFAULT_CONFIG FileRead.absent "interval" (by decide) (by decide)

mutual

/-- The os.walk step counts of a tree sum to its total file count (a bare
file node contributes its single file to the parent step instead, hence
the correcting bit). -/
theorem walk_sum_tree (t : FsTree) :
    (walkCounts t).sum + (match t with | FsTree.file => 1 | FsTree.dir _ => 0) = totalFiles t := by
  match t with
  | FsTree.file => rfl
  | FsTree.dir cs =>
    have h := walk_sum_forest cs
    simp only [walkCounts, totalFiles, List.sum_cons]
    omega

/-- The os.walk step counts contributed by a forest, plus its direct file
children, sum to its total file count. -/
theorem walk_sum_forest (cs : FsForest) :
    (walkCountsForest cs).sum + forestFileCount cs = totalFilesForest cs := by
  match cs with
  | FsForest.nil => rfl
  | FsForest.cons t rest =>
    have h1 := walk_sum_tree t
    have h2 := walk_sum_forest rest
    match t with
    | FsTree.file =>
      simp only [walkCountsForest, walkCounts, forestFileCount, totalFilesForest, totalFiles,
        List.nil_append, List.sum_append] at h1 h2 ⊢
      omega
    | FsTree.dir cs2 =>
      simp only [walkCountsForest, forestFileCount, totalFilesForest, List.sum_append] at h1 h2 ⊢
      omega

end

/-- Claim C10: count_all_files returns -1 when the path does not exist,
when it is not a directory, and when the traversal raises
(PermissionError or any other exception, both caught rather than
propagated); on a readable directory it returns the total number of
files in the directory tree, which is nonnegative.  The embedding is a
total function: no input raises to the caller. -/
theorem c10_count_spec :
    count_all_files PathProbe.missing = -1
    ∧ count_all_files PathProbe.notDir = -1
    ∧ count_all_files PathProbe.permError = -1
    ∧ count_all_files PathProbe.otherError = -1
    ∧ (∀ cs : FsForest,
      count_all_files (PathProbe.dirOk cs) = Int.ofNat (totalFilesForest cs)
      ∧ 0 ≤ count_all_files (PathProbe.dirOk cs)) := by
  refine ⟨rfl, rfl, rfl, rfl, ?_⟩
  intro cs
  have hfold : ∀ (l : List Nat) (a : Nat), l.foldl (fun acc n => acc + n) a = a + l.sum := by
    intro l
    induction l with
    | nil => intro a; simp
    | cons x t ih =>
      intro a
      simp only [List.foldl_cons, List.sum_cons, ih]
      omega
  have hsum : (walkCounts (FsTree.dir cs)).sum = totalFilesForest cs := by
    have h := walk_sum_forest cs
    simp only [walkCounts, List.sum_cons]
    omega
  constructor
  · simp only [count_all_files, hfold, Nat.zero_add, hsum]
  · simp only [count_all_files]
    exact Int.ofNat_nonneg _
